import Mathlib

/-!
Verification development for the `rust-ip2location` lookup engine
(`src/common.rs` and `src/ip2proxy/record.rs`).

The byte-level data source `Source` (File-backed and Mmap-backed) and the
`DB` dispatcher are embedded shallowly:

* a file's content is a `List Nat` of byte values;
* machine-integer offsets are `Nat`; the `offset - 1` computation on a
  `u64` is modelled with its checked (overflow-panicking) semantics, so
  `offset = 0` yields the `panicked` outcome;
* an out-of-bounds index into the memory map is likewise `panicked`;
* the File backend's `f.read(&mut buf)?` on a regular file fills
  `min(n, len - pos)` bytes of the zero-initialised buffer, ignores the
  returned byte count, and never fails at end of file — this zero-filling
  semantics is captured by `fileByte`/`fileRead`;
* `f32` values are represented by their IEEE-754 bit patterns (a `Nat`),
  since `f32::from_ne_bytes` is a bitwise reinterpretation of the buffer;
* host endianness is an explicit `le : Bool` parameter: `from_ne_bytes`
  assembles least-significant-byte-first exactly when `le = true`.
-/

/-- The error enum, as used by `src/common.rs` (`Error::IoError(String)`,
`Error::UnknownDb`, and the `From<FromUtf8Error>` conversion invoked by
`?` on `String::from_utf8`). -/
inductive Error where
  | IoError : String → Error
  | UnknownDb : Error
  | Utf8Error : Error
deriving DecidableEq, Repr

/-- Outcome of a read: a panic (checked integer underflow or an
out-of-bounds slice index), a returned `Err`, or a returned `Ok`. -/
inductive RRes (α : Type) where
  | panicked : RRes α
  | err : Error → RRes α
  | ok : α → RRes α
deriving DecidableEq, Repr

/-- Sequencing of fallible reads (the `?` operator). -/
def RRes.bind {α β : Type} : RRes α → (α → RRes β) → RRes β
  | .panicked, _ => .panicked
  | .err e, _ => .err e
  | .ok a, f => f a

/-- The byte a zero-initialised 1-byte buffer holds after
`seek(p); read(&mut buf)` on a regular file of content `content`:
the file byte at 0-based position `p` when in bounds, `0` otherwise
(`Read::read` returns `Ok(0)` at end of file and the count is ignored). -/
def fileByte (content : List Nat) (p : Nat) : Nat :=
  content.getD p 0

/-- The `n`-byte buffer after `seek(p); read(&mut buf)` on a regular file:
bytes from position `p` while in bounds, then zeros. -/
def fileRead (content : List Nat) (p n : Nat) : List Nat :=
  (List.range n).map fun i => fileByte content (p + i)

/-- `pub(crate) enum Source` from `src/common.rs`, reduced to the bytes
backing each variant (`File` carries an open file handle, `Mmap` a mapped
view; the stored `PathBuf` is display-only). -/
inductive Source where
  | File : List Nat → Source
  | Mmap : List Nat → Source

/-- `Source::read_u8`: File variant seeks to `offset - 1` and reads one
byte into a zeroed buffer; Mmap variant indexes `m[(offset - 1) as usize]`. -/
def Source.read_u8 : Source → Nat → RRes Nat
  | .File content, offset =>
      if offset = 0 then .panicked
      else .ok (fileByte content (offset - 1))
  | .Mmap content, offset =>
      if offset = 0 then .panicked
      else
        match content[offset - 1]? with
        | some b => .ok b
        | none => .panicked

/-- `u32::from_ne_bytes buf` for `buf = [b0, b1, b2, b3]` on a host of
endianness `le` (`le = true`: little-endian, `b0` least significant). -/
def u32_from_ne_bytes (le : Bool) (b0 b1 b2 b3 : Nat) : Nat :=
  if le then b0 + 2 ^ 8 * b1 + 2 ^ 16 * b2 + 2 ^ 24 * b3
  else b3 + 2 ^ 8 * b2 + 2 ^ 16 * b1 + 2 ^ 24 * b0

/-- `Source::read_u32`: File variant seeks to `offset - 1`, reads four
bytes into a zeroed buffer, and applies `u32::from_ne_bytes`; Mmap variant
fills the buffer from `m[offset - 1]`, `m[offset]`, `m[offset + 1]`,
`m[offset + 2]` and applies `u32::from_ne_bytes`. -/
def Source.read_u32 (s : Source) (le : Bool) (offset : Nat) : RRes Nat :=
  match s with
  | .File content =>
      if offset = 0 then .panicked
      else
        let buf := fileRead content (offset - 1) 4
        .ok (u32_from_ne_bytes le (buf.getD 0 0) (buf.getD 1 0) (buf.getD 2 0) (buf.getD 3 0))
  | .Mmap content =>
      if offset = 0 then .panicked
      else
        match content[offset - 1]?, content[offset]?, content[offset + 1]?,
            content[offset + 2]? with
        | some b0, some b1, some b2, some b3 => .ok (u32_from_ne_bytes le b0 b1 b2 b3)
        | _, _, _, _ => .panicked

/-- `Source::read_f32`: byte-for-byte the same buffer assembly as
`read_u32`, finished with `f32::from_ne_bytes`; the returned float is
represented here by its 32-bit IEEE-754 bit pattern, which is exactly the
`u32` assembled from the same buffer. -/
def Source.read_f32 (s : Source) (le : Bool) (offset : Nat) : RRes Nat :=
  match s with
  | .File content =>
      if offset = 0 then .panicked
      else
        let buf := fileRead content (offset - 1) 4
        .ok (u32_from_ne_bytes le (buf.getD 0 0) (buf.getD 1 0) (buf.getD 2 0) (buf.getD 3 0))
  | .Mmap content =>
      if offset = 0 then .panicked
      else
        match content[offset - 1]?, content[offset]?, content[offset + 1]?,
            content[offset + 2]? with
        | some b0, some b1, some b2, some b3 => .ok (u32_from_ne_bytes le b0 b1 b2 b3)
        | _, _, _, _ => .panicked

/-- Is `b` a UTF-8 continuation byte (`0x80..=0xBF`)? -/
def utf8Cont (b : Nat) : Bool :=
  decide (0x80 ≤ b) && decide (b ≤ 0xBF)

/-- The validation performed by `String::from_utf8` (the UTF-8 standard:
1–4 byte sequences, no overlong forms, no surrogates, max `U+10FFFF`). -/
def utf8Valid : List Nat → Bool
  | [] => true
  | b :: rest =>
    if b ≤ 0x7F then utf8Valid rest
    else if 0xC2 ≤ b ∧ b ≤ 0xDF then
      match rest with
      | c1 :: r => utf8Cont c1 && utf8Valid r
      | [] => false
    else if b = 0xE0 then
      match rest with
      | c1 :: c2 :: r => decide (0xA0 ≤ c1) && decide (c1 ≤ 0xBF) && utf8Cont c2 && utf8Valid r
      | _ => false
    else if (0xE1 ≤ b ∧ b ≤ 0xEC) ∨ (0xEE ≤ b ∧ b ≤ 0xEF) then
      match rest with
      | c1 :: c2 :: r => utf8Cont c1 && utf8Cont c2 && utf8Valid r
      | _ => false
    else if b = 0xED then
      match rest with
      | c1 :: c2 :: r => decide (0x80 ≤ c1) && decide (c1 ≤ 0x9F) && utf8Cont c2 && utf8Valid r
      | _ => false
    else if b = 0xF0 then
      match rest with
      | c1 :: c2 :: c3 :: r =>
          decide (0x90 ≤ c1) && decide (c1 ≤ 0xBF) && utf8Cont c2 && utf8Cont c3 && utf8Valid r
      | _ => false
    else if 0xF1 ≤ b ∧ b ≤ 0xF3 then
      match rest with
      | c1 :: c2 :: c3 :: r => utf8Cont c1 && utf8Cont c2 && utf8Cont c3 && utf8Valid r
      | _ => false
    else if b = 0xF4 then
      match rest with
      | c1 :: c2 :: c3 :: r =>
          decide (0x80 ≤ c1) && decide (c1 ≤ 0x8F) && utf8Cont c2 && utf8Cont c3 && utf8Valid r
      | _ => false
    else false

/-- The Mmap branch of `read_str`: the loop `buf[i] = m[(offset+1) as usize + i]`
for `i in 0..len`, panicking at the first out-of-bounds index. -/
def mmapBytesFrom (content : List Nat) (p : Nat) : Nat → Option (List Nat)
  | 0 => some []
  | n + 1 =>
      match content[p]?, mmapBytesFrom content (p + 1) n with
      | some b, some rest => some (b :: rest)
      | _, _ => none

/-- `Source::read_str`: reads the length byte via `self.read_u8(offset + 1)`,
then File variant seeks to 0-based `offset + 1` and reads `len` bytes into a
zeroed buffer, Mmap variant copies `m[(offset+1)+i]` for `i < len`; both
finish with `String::from_utf8`. The resulting `String` is represented by
its byte list (`from_utf8` validates and reinterprets the same bytes). -/
def Source.read_str (s : Source) (offset : Nat) : RRes (List Nat) :=
  (s.read_u8 (offset + 1)).bind fun len =>
    match s with
    | .File content =>
        let buf := fileRead content (offset + 1) len
        if utf8Valid buf then .ok buf else .err .Utf8Error
    | .Mmap content =>
        match mmapBytesFrom content (offset + 1) len with
        | some buf => if utf8Valid buf then .ok buf else .err .Utf8Error
        | none => .panicked

/-- Sequences a list of read outcomes left to right, as the `?`-carrying
loop in `read_ipv6` does. -/
def collectRes {α : Type} : List (RRes α) → RRes (List α)
  | [] => .ok []
  | r :: rs => r.bind fun b => (collectRes rs).bind fun bs => .ok (b :: bs)

/-- `Source::read_ipv6`: the loop fills `buf[i] = self.read_u8(offset + j)?`
with `j = 15, 14, …, 1, 0` as `i = 0, …, 15`, then builds `Ipv6Addr::from(buf)`.
The address is represented by `buf` itself: its 16 network-order bytes,
`buf[0]` most significant. -/
def Source.read_ipv6 (s : Source) (offset : Nat) : RRes (List Nat) :=
  collectRes ((List.range 16).map fun i => s.read_u8 (offset + 15 - i))

/-- `pub const FROM_6TO4` from `src/common.rs`. -/
def FROM_6TO4 : Nat := 0x20020000000000000000000000000000

/-- `pub const TO_6TO4` from `src/common.rs`. -/
def TO_6TO4 : Nat := 0x2002ffffffffffffffffffffffffffff

/-- `pub const FROM_TEREDO` from `src/common.rs`. -/
def FROM_TEREDO : Nat := 0x20010000000000000000000000000000

/-- `pub const TO_TEREDO` from `src/common.rs`. -/
def TO_TEREDO : Nat := 0x20010000ffffffffffffffffffffffff

/-- Spec-side definition: the 128-bit unsigned integer denoted by an IPv6
address written as eight 16-bit groups `g0:g1:g2:g3:g4:g5:g6:g7`. -/
def specIpv6Groups (g0 g1 g2 g3 g4 g5 g6 g7 : Nat) : Nat :=
  g0 * 2 ^ 112 + g1 * 2 ^ 96 + g2 * 2 ^ 80 + g3 * 2 ^ 64 +
    g4 * 2 ^ 48 + g5 * 2 ^ 32 + g6 * 2 ^ 16 + g7

/-- `pub enum DB` from `src/common.rs`: the handle opened as either a
`LocationDB` or a `ProxyDB`. The inner database types (whose modules are
not part of the embedded core) are abstract type parameters. -/
inductive DB (L P : Type) where
  | LocationDb : L → DB L P
  | ProxyDb : P → DB L P
deriving DecidableEq, Repr

/-- `pub enum Record` from `src/common.rs`: the tagged lookup result. The
inner record types are abstract type parameters. -/
inductive Record (LR PR : Type) where
  | LocationDb : LR → Record LR PR
  | ProxyDb : PR → Record LR PR
deriving DecidableEq, Repr

/-- `DB::from_file` for one fixed path, parameterised by that path's
properties: whether it exists (`path.as_ref().exists()`), and the outcomes
of `LocationDB::from_file` and `ProxyDB::from_file` on it (those
constructors live outside the embedded core, so they are data here). The
body mirrors the source: early return of the I/O error when the path does
not exist, then the Location probe, then the Proxy probe, else
`Error::UnknownDb`. -/
def DB.from_file {L P : Type} (pathExists : Bool) (locationFromFile : Except Error L)
    (proxyFromFile : Except Error P) : Except Error (DB L P) :=
  if pathExists = false then
    .error (.IoError "Error opening DB file: No such file or directory")
  else
    match locationFromFile with
    | .ok location_db => .ok (.LocationDb location_db)
    | .error _ =>
        match proxyFromFile with
        | .ok proxy_db => .ok (.ProxyDb proxy_db)
        | .error _ => .error .UnknownDb

/-- `DB::from_file_mmap` for one fixed path, parameterised by the outcomes
of `LocationDB::from_file_mmap` and `ProxyDB::from_file_mmap` on it. The
source performs no existence check here: it probes Location, then Proxy,
else returns `Error::UnknownDb`, discarding the inner errors. -/
def DB.from_file_mmap {L P : Type} (locationFromFileMmap : Except Error L)
    (proxyFromFileMmap : Except Error P) : Except Error (DB L P) :=
  match locationFromFileMmap with
  | .ok location_db => .ok (.LocationDb location_db)
  | .error _ =>
      match proxyFromFileMmap with
      | .ok proxy_db => .ok (.ProxyDb proxy_db)
      | .error _ => .error .UnknownDb

/-- `DB::ip_lookup`: dispatches on the variant chosen at open time and
wraps the inner result in the matching `Record` variant, propagating the
inner error through `?`. The inner `ip_lookup` functions of `LocationDB`
and `ProxyDB` live outside the embedded core and are parameters. -/
def DB.ip_lookup {L P LR PR Ip : Type} (locLookup : L → Ip → Except Error LR)
    (proxyLookup : P → Ip → Except Error PR) : DB L P → Ip → Except Error (Record LR PR)
  | .LocationDb db, ip =>
      match locLookup db ip with
      | .ok r => .ok (.LocationDb r)
      | .error e => .error e
  | .ProxyDb db, ip =>
      match proxyLookup db ip with
      | .ok r => .ok (.ProxyDb r)
      | .error e => .error e

/-! ### Helper lemmas -/

lemma getElem?_eq_some_getD {l : List Nat} {i : Nat} (h : i < l.length) :
    l[i]? = some (l.getD i 0) := by
  rw [List.getElem?_eq_getElem h]
  simp [List.getD_eq_getElem?_getD, List.getElem?_eq_getElem h]

lemma fileByte_eq_getElem {l : List Nat} {i : Nat} (h : i < l.length) :
    fileByte l i = l[i] := by
  simp [fileByte, List.getD_eq_getElem?_getD, List.getElem?_eq_getElem h]

lemma getElem?_eq_some_fileByte {l : List Nat} {i : Nat} (h : i < l.length) :
    l[i]? = some (fileByte l i) := by
  rw [List.getElem?_eq_getElem h, fileByte_eq_getElem h]

/-- `read_f32` performs byte-for-byte the same computation as `read_u32`
(only the final reinterpretation differs, which the bit-pattern
representation makes the identity). -/
lemma read_f32_eq_read_u32 (s : Source) (le : Bool) (offset : Nat) :
    s.read_f32 le offset = s.read_u32 le offset := by
  cases s <;> rfl

/-- Evaluation of the File-backend `read_u8` at a nonzero offset. -/
lemma read_u8_file_eval {offset : Nat} (content : List Nat) (h1 : 1 ≤ offset) :
    (Source.File content).read_u8 offset = RRes.ok (fileByte content (offset - 1)) := by
  have hne : ¬ offset = 0 := by omega
  simp [Source.read_u8, if_neg hne]

/-- Evaluation of the Mmap-backend `read_u8` at an in-bounds nonzero offset. -/
lemma read_u8_mmap_ok {offset : Nat} (content : List Nat) (h1 : 1 ≤ offset)
    (hb : offset - 1 < content.length) :
    (Source.Mmap content).read_u8 offset = RRes.ok (fileByte content (offset - 1)) := by
  have hne : ¬ offset = 0 := by omega
  rw [Source.read_u8]
  rw [if_neg hne, getElem?_eq_some_fileByte hb]

/-- Evaluation of the File-backend `read_u32` at a nonzero offset: the
four buffer bytes are the file bytes at 0-based `offset - 1, …, offset + 2`
(zero when past end of file). -/
lemma read_u32_file_eval {offset : Nat} (content : List Nat) (le : Bool) (h1 : 1 ≤ offset) :
    (Source.File content).read_u32 le offset =
      RRes.ok (u32_from_ne_bytes le (fileByte content (offset - 1)) (fileByte content offset)
        (fileByte content (offset + 1)) (fileByte content (offset + 2))) := by
  have hne : ¬ offset = 0 := by omega
  have e0 : offset - 1 + 1 = offset := by omega
  have e1 : offset - 1 + 2 = offset + 1 := by omega
  have e2 : offset - 1 + 3 = offset + 2 := by omega
  simp only [Source.read_u32, fileRead, if_neg hne]
  norm_num [List.range_succ, e0, e1, e2, List.getD]

/-- Evaluation of the Mmap-backend `read_u32` at a nonzero offset whose
four indexed positions are all in bounds. -/
lemma read_u32_mmap_ok {offset : Nat} (content : List Nat) (le : Bool) (h1 : 1 ≤ offset)
    (hb : offset + 3 ≤ content.length) :
    (Source.Mmap content).read_u32 le offset =
      RRes.ok (u32_from_ne_bytes le (fileByte content (offset - 1)) (fileByte content offset)
        (fileByte content (offset + 1)) (fileByte content (offset + 2))) := by
  have hne : ¬ offset = 0 := by omega
  have g0 : offset - 1 < content.length := by omega
  have g1 : offset < content.length := by omega
  have g2 : offset + 1 < content.length := by omega
  have g3 : offset + 2 < content.length := by omega
  rw [Source.read_u32]
  rw [if_neg hne, getElem?_eq_some_fileByte g0, getElem?_eq_some_fileByte g1,
    getElem?_eq_some_fileByte g2, getElem?_eq_some_fileByte g3]

/-! ### C8: the 6to4 and Teredo range constants -/

/-- C8: the 6to4 detection range constants equal exactly
`[2002:0000::, 2002:ffff:ffff:ffff:ffff:ffff:ffff:ffff]` and the Teredo
detection range constants equal exactly
`[2001:0000::, 2001:0000:ffff:ffff:ffff:ffff:ffff:ffff]`, as 128-bit
unsigned integers. -/
theorem special_range_constants :
    FROM_6TO4 = specIpv6Groups 0x2002 0 0 0 0 0 0 0 ∧
    TO_6TO4 = specIpv6Groups 0x2002 0xffff 0xffff 0xffff 0xffff 0xffff 0xffff 0xffff ∧
    FROM_TEREDO = specIpv6Groups 0x2001 0 0 0 0 0 0 0 ∧
    TO_TEREDO = specIpv6Groups 0x2001 0 0xffff 0xffff 0xffff 0xffff 0xffff 0xffff ∧
    FROM_6TO4 < 2 ^ 128 ∧ TO_6TO4 < 2 ^ 128 ∧ FROM_TEREDO < 2 ^ 128 ∧ TO_TEREDO < 2 ^ 128 := by
  refine ⟨?_, ?_, ?_, ?_, ?_, ?_, ?_, ?_⟩ <;>
    norm_num [FROM_6TO4, TO_6TO4, FROM_TEREDO, TO_TEREDO, specIpv6Groups]

/-! ### C2: short-file behaviour of the File backend -/

/-- C2 (failing input): on a 0-byte file, every File-backend typed read at
offset 1 returns `Ok` with zero-filled data instead of an I/O error: the
byte count returned by `Read::read` is ignored, so the zero-initialised
buffer is decoded as if it had been filled. -/
theorem short_file_reads_zero_fill :
    (Source.File []).read_u8 1 = RRes.ok 0 ∧
    (Source.File []).read_u32 true 1 = RRes.ok 0 ∧
    (Source.File []).read_u32 false 1 = RRes.ok 0 ∧
    (Source.File []).read_f32 true 1 = RRes.ok 0 ∧
    (Source.File []).read_f32 false 1 = RRes.ok 0 ∧
    (Source.File []).read_str 1 = RRes.ok [] := by
  decide

/-! ### C3: byte order of read_u32 / read_f32 -/

/-- C3 (counterexample): the claim asserts the assembled value is
least-significant-byte-first on every host. On a big-endian host
(`le = false`) the file bytes `[1, 0, 0, 0]` read at offset 1 yield
`0x01000000 = 16777216`, not the little-endian value `1`: the source uses
`from_ne_bytes`, so the byte order follows the host. -/
theorem read_u32_big_endian_counterexample :
    (Source.File [1, 0, 0, 0]).read_u32 false 1 = RRes.ok 16777216 ∧
    (Source.Mmap [1, 0, 0, 0]).read_u32 false 1 = RRes.ok 16777216 ∧
    ¬ (Source.File [1, 0, 0, 0]).read_u32 false 1 = RRes.ok 1 := by
  decide

/-- C3 (amended): on a little-endian host (`le = true`), `read_u32` and
`read_f32` (as a bit pattern) assemble the result least-significant-byte-first
from the four consecutive file bytes at 0-based positions
`offset - 1, offset, offset + 1, offset + 2`, on both backends (the Mmap
backend under its bounds precondition). -/
theorem read_u32_le_assembly (content : List Nat) (offset : Nat) (h1 : 1 ≤ offset) :
    ((Source.File content).read_u32 true offset =
      RRes.ok (fileByte content (offset - 1) + 2 ^ 8 * fileByte content offset +
        2 ^ 16 * fileByte content (offset + 1) + 2 ^ 24 * fileByte content (offset + 2))) ∧
    (Source.File content).read_f32 true offset = (Source.File content).read_u32 true offset ∧
    (offset + 3 ≤ content.length →
      (Source.Mmap content).read_u32 true offset = (Source.File content).read_u32 true offset ∧
      (Source.Mmap content).read_f32 true offset = (Source.File content).read_u32 true offset) := by
  have hne : ¬ offset = 0 := by omega
  have e0 : offset - 1 + 1 = offset := by omega
  have e1 : offset - 1 + 2 = offset + 1 := by omega
  have e2 : offset - 1 + 3 = offset + 2 := by omega
  have hfile : (Source.File content).read_u32 true offset =
      RRes.ok (fileByte content (offset - 1) + 2 ^ 8 * fileByte content offset +
        2 ^ 16 * fileByte content (offset + 1) + 2 ^ 24 * fileByte content (offset + 2)) := by
    simp only [Source.read_u32, fileRead, if_neg hne]
    norm_num [List.range_succ, e0, e1, e2, List.getD, u32_from_ne_bytes]
  refine ⟨hfile, ?_, ?_⟩
  · simp only [Source.read_u32, Source.read_f32]
  · intro hb
    have g0 : offset - 1 < content.length := by omega
    have g1 : offset < content.length := by omega
    have g2 : offset + 1 < content.length := by omega
    have g3 : offset + 2 < content.length := by omega
    constructor
    · rw [hfile]
      simp only [Source.read_u32, if_neg hne, getElem?_eq_some_getD g0,
        getElem?_eq_some_getD g1, getElem?_eq_some_getD g2, getElem?_eq_some_getD g3]
      norm_num [u32_from_ne_bytes, fileByte]
    · rw [hfile]
      simp only [Source.read_f32, if_neg hne, getElem?_eq_some_getD g0,
        getElem?_eq_some_getD g1, getElem?_eq_some_getD g2, getElem?_eq_some_getD g3]
      norm_num [u32_from_ne_bytes, fileByte]

/-- C3 (witness): the amended theorem instantiated on the concrete file
`[0x78, 0x56, 0x34, 0x12]` at offset 1, where the little-endian assembly
is `0x12345678`. -/
theorem read_u32_le_assembly_witness :
    (Source.File [0x78, 0x56, 0x34, 0x12]).read_u32 true 1 = RRes.ok 0x12345678 ∧
    (Source.Mmap [0x78, 0x56, 0x34, 0x12]).read_u32 true 1 =
      (Source.File [0x78, 0x56, 0x34, 0x12]).read_u32 true 1 := by
  have h := read_u32_le_assembly [0x78, 0x56, 0x34, 0x12] 1 (by decide)
  refine ⟨?_, (h.2.2 (by decide)).1⟩
  rw [h.1]
  decide

/-! ### C10: the implicit `offset ≥ 1` precondition -/

/-- C10: every typed fixed-width read carries the unstated precondition
`offset ≥ 1`. At `offset = 0` the `offset - 1` computation on the unsigned
64-bit offset underflows and the call panics (on the Mmap variant the
wrapped value would index far out of bounds) instead of returning an `Err`;
for `offset ≥ 1` the subtraction cannot underflow, so the File variant
never panics, and under the bounds precondition
`offset - 1 + width ≤ length` the Mmap indexing stays in bounds. -/
theorem read_offset_zero_panics (le : Bool) (content : List Nat) :
    ((Source.File content).read_u8 0 = RRes.panicked ∧
     (Source.Mmap content).read_u8 0 = RRes.panicked ∧
     (Source.File content).read_u32 le 0 = RRes.panicked ∧
     (Source.Mmap content).read_u32 le 0 = RRes.panicked ∧
     (Source.File content).read_f32 le 0 = RRes.panicked ∧
     (Source.Mmap content).read_f32 le 0 = RRes.panicked) ∧
    (∀ offset : Nat, 1 ≤ offset →
      (Source.File content).read_u8 offset ≠ RRes.panicked ∧
      (Source.File content).read_u32 le offset ≠ RRes.panicked ∧
      (Source.File content).read_f32 le offset ≠ RRes.panicked) ∧
    (∀ offset : Nat, 1 ≤ offset → offset ≤ content.length →
      (Source.Mmap content).read_u8 offset ≠ RRes.panicked) ∧
    (∀ offset : Nat, 1 ≤ offset → offset + 3 ≤ content.length →
      (Source.Mmap content).read_u32 le offset ≠ RRes.panicked ∧
      (Source.Mmap content).read_f32 le offset ≠ RRes.panicked) := by
  refine ⟨⟨?_, ?_, ?_, ?_, ?_, ?_⟩, ?_, ?_, ?_⟩
  · simp [Source.read_u8]
  · simp [Source.read_u8]
  · simp [Source.read_u32]
  · simp [Source.read_u32]
  · simp [Source.read_f32]
  · simp [Source.read_f32]
  · intro offset h1
    have hne : ¬ offset = 0 := by omega
    refine ⟨?_, ?_, ?_⟩ <;> simp [Source.read_u8, Source.read_u32, Source.read_f32, if_neg hne]
  · intro offset h1 hb
    have g0 : offset - 1 < content.length := by omega
    rw [read_u8_mmap_ok content h1 g0]
    simp
  · intro offset h1 hb
    rw [read_f32_eq_read_u32, read_u32_mmap_ok content le h1 hb]
    simp

/-- C10 (witness): the precondition theorem instantiated on the concrete
file `[10, 20, 30, 40]`: offset 0 panics on both backends, offset 1 panics
on neither. -/
theorem read_offset_zero_panics_witness :
    (Source.File [10, 20, 30, 40]).read_u32 true 0 = RRes.panicked ∧
    (Source.Mmap [10, 20, 30, 40]).read_u32 true 0 = RRes.panicked ∧
    (Source.File [10, 20, 30, 40]).read_u32 true 1 ≠ RRes.panicked ∧
    (Source.Mmap [10, 20, 30, 40]).read_u32 true 1 ≠ RRes.panicked := by
  have h := read_offset_zero_panics true [10, 20, 30, 40]
  exact ⟨h.1.2.2.1, h.1.2.2.2.1, (h.2.1 1 (by decide)).2.1,
    (h.2.2.2 1 (by decide) (by decide)).1⟩

/-- Under the bounds precondition, the File-backend buffer of `n` bytes
read from position `p` is exactly the slice `content[p .. p + n)`. -/
lemma fileRead_eq_take_drop {content : List Nat} {p n : Nat} (h : p + n ≤ content.length) :
    fileRead content p n = (content.drop p).take n := by
  apply List.ext_getElem
  · simp [fileRead]
    omega
  · intro i h1 h2
    have hi : i < n := by simpa [fileRead] using h1
    have hpi : p + i < content.length := by omega
    simp only [fileRead, List.getElem_map, List.getElem_range, List.getElem_take,
      List.getElem_drop]
    exact fileByte_eq_getElem hpi

/-- Under the bounds precondition, the Mmap-backend copy loop of `n` bytes
from position `p` succeeds and yields exactly the slice `content[p .. p + n)`. -/
lemma mmapBytesFrom_ok {content : List Nat} {p n : Nat} (h : p + n ≤ content.length) :
    mmapBytesFrom content p n = some ((content.drop p).take n) := by
  induction n generalizing p with
  | zero => simp [mmapBytesFrom]
  | succ k ih =>
      have hp : p < content.length := by omega
      have hrec := ih (p := p + 1) (by omega)
      rw [mmapBytesFrom]
      rw [getElem?_eq_some_fileByte hp, hrec]
      have hdrop : content.drop p = content[p] :: content.drop (p + 1) :=
        (List.drop_eq_getElem_cons hp).symm ▸ rfl
      rw [hdrop, List.take_succ_cons, fileByte_eq_getElem hp]

/-- Sequencing a list of already-successful reads collects their values. -/
lemma collectRes_map_ok {β : Type} (l : List β) (f : β → Nat) :
    collectRes (l.map fun a => RRes.ok (f a)) = RRes.ok (l.map f) := by
  induction l with
  | nil => rfl
  | cons a t ih => simp [collectRes, RRes.bind, ih]

/-- Reversing a tabulated list re-tabulates it with mirrored indices. -/
lemma reverse_range_map {α : Type} (n : Nat) (f : Nat → α) :
    ((List.range n).map f).reverse = (List.range n).map fun i => f (n - 1 - i) := by
  apply List.ext_getElem
  · simp
  · intro i h1 h2
    simp only [List.getElem_reverse, List.getElem_map, List.getElem_range,
      List.length_map, List.length_range]

/-- Evaluation of the File-backend `read_ipv6` at a nonzero offset:
buffer byte `i` is the file byte at 0-based `offset + 14 - i`. -/
lemma read_ipv6_file_eval {offset : Nat} (content : List Nat) (h1 : 1 ≤ offset) :
    (Source.File content).read_ipv6 offset =
      RRes.ok ((List.range 16).map fun i => fileByte content (offset + 14 - i)) := by
  rw [Source.read_ipv6]
  have hmaps : ((List.range 16).map fun i => (Source.File content).read_u8 (offset + 15 - i)) =
      (List.range 16).map fun i => RRes.ok (fileByte content (offset + 14 - i)) := by
    apply List.map_congr_left
    intro i hi
    have hi16 : i < 16 := by simpa using hi
    have h1x : 1 ≤ offset + 15 - i := by omega
    have harg : offset + 15 - i - 1 = offset + 14 - i := by omega
    rw [read_u8_file_eval content h1x, harg]
  rw [hmaps, collectRes_map_ok]

/-- Evaluation of the Mmap-backend `read_ipv6` at a nonzero offset whose
16 indexed positions are all in bounds. -/
lemma read_ipv6_mmap_ok {offset : Nat} (content : List Nat) (h1 : 1 ≤ offset)
    (hb : offset + 15 ≤ content.length) :
    (Source.Mmap content).read_ipv6 offset =
      RRes.ok ((List.range 16).map fun i => fileByte content (offset + 14 - i)) := by
  rw [Source.read_ipv6]
  have hmaps : ((List.range 16).map fun i => (Source.Mmap content).read_u8 (offset + 15 - i)) =
      (List.range 16).map fun i => RRes.ok (fileByte content (offset + 14 - i)) := by
    apply List.map_congr_left
    intro i hi
    have hi16 : i < 16 := by simpa using hi
    have h1x : 1 ≤ offset + 15 - i := by omega
    have hbx : offset + 15 - i - 1 < content.length := by omega
    have harg : offset + 15 - i - 1 = offset + 14 - i := by omega
    rw [read_u8_mmap_ok content h1x hbx, harg]
  rw [hmaps, collectRes_map_ok]

/-- Evaluation of the File-backend `read_str`: the length byte is the file
byte at 0-based `offset` and the payload buffer is read from 0-based
`offset + 1`. -/
lemma read_str_file_eval (content : List Nat) (offset : Nat) :
    (Source.File content).read_str offset =
      (if utf8Valid (fileRead content (offset + 1) (fileByte content offset)) then
        RRes.ok (fileRead content (offset + 1) (fileByte content offset))
      else RRes.err Error.Utf8Error) := by
  rw [Source.read_str, read_u8_file_eval content (by omega)]
  simp only [RRes.bind, Nat.add_sub_cancel]

/-- Evaluation of the Mmap-backend `read_str` under the bounds
precondition: same length byte, payload the slice
`content[offset + 1 .. offset + 1 + len)`. -/
lemma read_str_mmap_ok (content : List Nat) (offset : Nat)
    (hb : offset + 1 + fileByte content offset ≤ content.length) :
    (Source.Mmap content).read_str offset =
      (if utf8Valid ((content.drop (offset + 1)).take (fileByte content offset)) then
        RRes.ok ((content.drop (offset + 1)).take (fileByte content offset))
      else RRes.err Error.Utf8Error) := by
  have hlen : offset + 1 - 1 < content.length := by omega
  rw [Source.read_str, read_u8_mmap_ok content (by omega) hlen]
  simp only [RRes.bind, Nat.add_sub_cancel]
  rw [mmapBytesFrom_ok (by omega)]

/-! ### C5: byte order of read_ipv6 -/

/-- C5: for `offset ≥ 1` with the 16 source bytes in bounds, `read_ipv6`
reads the bytes at 1-based offsets `offset + 15` down to `offset` in
descending order, returning the address whose network-order bytes (index 0
most significant) are the on-disk slice `content[offset - 1 .. offset + 15)`
reversed — the disk byte at 1-based `offset + 15` becomes the most
significant address byte. Holds on both backends. -/
theorem read_ipv6_reversed (content : List Nat) (offset : Nat) (h1 : 1 ≤ offset)
    (hb : offset + 15 ≤ content.length) :
    (Source.File content).read_ipv6 offset =
      RRes.ok (((content.drop (offset - 1)).take 16).reverse) ∧
    (Source.Mmap content).read_ipv6 offset =
      RRes.ok (((content.drop (offset - 1)).take 16).reverse) := by
  have hslice : (content.drop (offset - 1)).take 16 =
      (List.range 16).map fun i => fileByte content (offset - 1 + i) := by
    rw [← fileRead_eq_take_drop (by omega : offset - 1 + 16 ≤ content.length)]
    rfl
  have hrev : ((content.drop (offset - 1)).take 16).reverse =
      (List.range 16).map fun i => fileByte content (offset + 14 - i) := by
    rw [hslice, reverse_range_map]
    apply List.map_congr_left
    intro i hi
    have hi16 : i < 16 := by simpa using hi
    have harg : offset - 1 + (16 - 1 - i) = offset + 14 - i := by omega
    rw [harg]
  rw [read_ipv6_file_eval content h1, read_ipv6_mmap_ok content h1 hb, hrev]
  exact ⟨rfl, rfl⟩

/-- C5 (witness): on the 16-byte file `[0, 1, …, 15]` at offset 1, both
backends return the reversed bytes `[15, 14, …, 0]`. -/
theorem read_ipv6_reversed_witness :
    (Source.File [0, 1, 2, 3, 4, 5, 6, 7, 8, 9, 10, 11, 12, 13, 14, 15]).read_ipv6 1 =
      RRes.ok [15, 14, 13, 12, 11, 10, 9, 8, 7, 6, 5, 4, 3, 2, 1, 0] ∧
    (Source.Mmap [0, 1, 2, 3, 4, 5, 6, 7, 8, 9, 10, 11, 12, 13, 14, 15]).read_ipv6 1 =
      RRes.ok [15, 14, 13, 12, 11, 10, 9, 8, 7, 6, 5, 4, 3, 2, 1, 0] := by
  have h := read_ipv6_reversed [0, 1, 2, 3, 4, 5, 6, 7, 8, 9, 10, 11, 12, 13, 14, 15] 1
    (by decide) (by decide)
  exact ⟨h.1.trans (by decide), h.2.trans (by decide)⟩

/-! ### C4: read_str layout and decoding -/

/-- C4: `read_str offset` reads the one-byte length `L` at 1-based
`offset + 1` (0-based `offset`, here `fileByte content offset`), then
exactly `L` bytes starting at 1-based `offset + 2` (0-based `offset + 1`,
the slice `content[offset + 1 .. offset + 1 + L)`), and returns them as the
string's UTF-8 bytes; a non-UTF-8 payload returns the decode error, and
`L = 0` returns the empty string. Both backends agree under the bounds
precondition. -/
theorem read_str_spec (content : List Nat) (offset : Nat)
    (hb : offset + 1 + fileByte content offset ≤ content.length) :
    ((Source.File content).read_str offset =
      (if utf8Valid ((content.drop (offset + 1)).take (fileByte content offset)) then
        RRes.ok ((content.drop (offset + 1)).take (fileByte content offset))
      else RRes.err Error.Utf8Error)) ∧
    (Source.Mmap content).read_str offset = (Source.File content).read_str offset ∧
    (fileByte content offset = 0 →
      (Source.File content).read_str offset = RRes.ok [] ∧
      (Source.Mmap content).read_str offset = RRes.ok []) := by
  have hfile : (Source.File content).read_str offset =
      (if utf8Valid ((content.drop (offset + 1)).take (fileByte content offset)) then
        RRes.ok ((content.drop (offset + 1)).take (fileByte content offset))
      else RRes.err Error.Utf8Error) := by
    rw [read_str_file_eval, fileRead_eq_take_drop (by omega)]
  have hmm := read_str_mmap_ok content offset hb
  refine ⟨hfile, hmm.trans hfile.symm, ?_⟩
  intro h0
  rw [hfile, hmm, h0]
  have hval : utf8Valid ([] : List Nat) = true := rfl
  simp [hval]

/-- C4 (witness): on the file `[1, 65]` at offset 0 the length byte is 1
and the payload is the single byte `65` (valid UTF-8, the string `A`);
on the file `[0]` at offset 0 the length byte is 0 and the result is the
empty string. -/
theorem read_str_spec_witness :
    (Source.File [1, 65]).read_str 0 = RRes.ok [65] ∧
    (Source.Mmap [1, 65]).read_str 0 = RRes.ok [65] ∧
    (Source.File [0]).read_str 0 = RRes.ok [] := by
  have h := read_str_spec [1, 65] 0 (by decide)
  have h2 := read_str_spec [0] 0 (by decide)
  exact ⟨h.1.trans (by decide), (h.2.1.trans h.1).trans (by decide), (h2.2.2 (by decide)).1⟩

/-! ### C1: backend equivalence -/

/-- C1: for every file content and every valid 1-based offset (each read's
source bytes in bounds), each typed read of `Source` returns the same
value on the File-backed variant as on the Mmap-backed variant over the
same bytes. -/
theorem backend_equivalence (le : Bool) (content : List Nat) (offset : Nat) (h1 : 1 ≤ offset) :
    (offset ≤ content.length →
      (Source.File content).read_u8 offset = (Source.Mmap content).read_u8 offset) ∧
    (offset + 3 ≤ content.length →
      (Source.File content).read_u32 le offset = (Source.Mmap content).read_u32 le offset) ∧
    (offset + 3 ≤ content.length →
      (Source.File content).read_f32 le offset = (Source.Mmap content).read_f32 le offset) ∧
    (offset + 1 + fileByte content offset ≤ content.length →
      (Source.File content).read_str offset = (Source.Mmap content).read_str offset) ∧
    (offset + 15 ≤ content.length →
      (Source.File content).read_ipv6 offset = (Source.Mmap content).read_ipv6 offset) := by
  refine ⟨?_, ?_, ?_, ?_, ?_⟩
  · intro hb
    rw [read_u8_file_eval content h1, read_u8_mmap_ok content h1 (by omega)]
  · intro hb
    rw [read_u32_file_eval content le h1, read_u32_mmap_ok content le h1 hb]
  · intro hb
    rw [read_f32_eq_read_u32, read_f32_eq_read_u32,
      read_u32_file_eval content le h1, read_u32_mmap_ok content le h1 hb]
  · intro hb
    rw [read_str_file_eval, fileRead_eq_take_drop (by omega), read_str_mmap_ok content offset hb]
  · intro hb
    exact ((read_ipv6_reversed content offset h1 hb).1).trans
      ((read_ipv6_reversed content offset h1 hb).2).symm

/-- C1 (witness): the equivalence instantiated on a concrete 21-byte file
at offset 1, discharging every bounds hypothesis. -/
theorem backend_equivalence_witness :
    ((Source.File [2, 2, 65, 66, 0, 1, 2, 3, 4, 5, 6, 7, 8, 9, 10, 11, 12, 13, 14, 15, 16]).read_u8 1 =
      (Source.Mmap [2, 2, 65, 66, 0, 1, 2, 3, 4, 5, 6, 7, 8, 9, 10, 11, 12, 13, 14, 15, 16]).read_u8 1) ∧
    ((Source.File [2, 2, 65, 66, 0, 1, 2, 3, 4, 5, 6, 7, 8, 9, 10, 11, 12, 13, 14, 15, 16]).read_u32 true 1 =
      (Source.Mmap [2, 2, 65, 66, 0, 1, 2, 3, 4, 5, 6, 7, 8, 9, 10, 11, 12, 13, 14, 15, 16]).read_u32 true 1) ∧
    ((Source.File [2, 2, 65, 66, 0, 1, 2, 3, 4, 5, 6, 7, 8, 9, 10, 11, 12, 13, 14, 15, 16]).read_f32 true 1 =
      (Source.Mmap [2, 2, 65, 66, 0, 1, 2, 3, 4, 5, 6, 7, 8, 9, 10, 11, 12, 13, 14, 15, 16]).read_f32 true 1) ∧
    ((Source.File [2, 2, 65, 66, 0, 1, 2, 3, 4, 5, 6, 7, 8, 9, 10, 11, 12, 13, 14, 15, 16]).read_str 1 =
      (Source.Mmap [2, 2, 65, 66, 0, 1, 2, 3, 4, 5, 6, 7, 8, 9, 10, 11, 12, 13, 14, 15, 16]).read_str 1) ∧
    ((Source.File [2, 2, 65, 66, 0, 1, 2, 3, 4, 5, 6, 7, 8, 9, 10, 11, 12, 13, 14, 15, 16]).read_ipv6 1 =
      (Source.Mmap [2, 2, 65, 66, 0, 1, 2, 3, 4, 5, 6, 7, 8, 9, 10, 11, 12, 13, 14, 15, 16]).read_ipv6 1) := by
  have h := backend_equivalence true
    [2, 2, 65, 66, 0, 1, 2, 3, 4, 5, 6, 7, 8, 9, 10, 11, 12, 13, 14, 15, 16] 1 (by decide)
  exact ⟨h.1 (by decide), h.2.1 (by decide), h.2.2.1 (by decide), h.2.2.2.1 (by decide),
    h.2.2.2.2 (by decide)⟩

/-! ### C6: opening a missing file -/

/-- C6 (counterexample): the claim asserts that both open operations
return the I/O "file missing" error on a nonexistent path. `DB::from_file`
does, but `DB::from_file_mmap` performs no existence check and discards
the inner open errors, so it returns `Error::UnknownDb`.
Modelled from the spec: `LocationDB::from_file_mmap` and
`ProxyDB::from_file_mmap` (whose modules are not under `src/`) fail with
an I/O error when the file is missing ("I/O error — file missing"); those
concrete failing outcomes instantiate the parameters here. -/
theorem from_file_mmap_missing_counterexample :
    DB.from_file_mmap (L := Unit) (P := Unit)
        (Except.error (Error.IoError "No such file or directory"))
        (Except.error (Error.IoError "No such file or directory")) =
      Except.error Error.UnknownDb ∧
    Error.UnknownDb ≠ Error.IoError "Error opening DB file: No such file or directory" := by
  exact ⟨rfl, by decide⟩

/-- C6 (amended): on a path that does not exist, `DB::from_file` fails
with the I/O "file missing" error (regardless of the probe outcomes),
while `DB::from_file_mmap` — which has no existence check — returns
`Error::UnknownDb` whenever both inner mmap opens fail, as they do on a
missing file. -/
theorem open_missing_file {L P : Type} (locationFromFile : Except Error L)
    (proxyFromFile : Except Error P) (locationFromFileMmap : Except Error L)
    (proxyFromFileMmap : Except Error P)
    (hLoc : ∀ l : L, locationFromFileMmap ≠ Except.ok l)
    (hProx : ∀ p : P, proxyFromFileMmap ≠ Except.ok p) :
    DB.from_file false locationFromFile proxyFromFile =
      Except.error (Error.IoError "Error opening DB file: No such file or directory") ∧
    DB.from_file_mmap locationFromFileMmap proxyFromFileMmap =
      Except.error Error.UnknownDb := by
  constructor
  · rfl
  · match hm : locationFromFileMmap with
    | .ok l => exact absurd rfl (hLoc l)
    | .error e =>
        match hp : proxyFromFileMmap with
        | .ok p => exact absurd rfl (hProx p)
        | .error e2 => simp [DB.from_file_mmap]

/-- C6 (witness): the amended theorem instantiated with concrete failing
inner opens. -/
theorem open_missing_file_witness :
    DB.from_file (L := Unit) (P := Unit) false
        (Except.error (Error.IoError "No such file or directory"))
        (Except.error (Error.IoError "No such file or directory")) =
      Except.error (Error.IoError "Error opening DB file: No such file or directory") ∧
    DB.from_file_mmap (L := Unit) (P := Unit)
        (Except.error (Error.IoError "No such file or directory"))
        (Except.error (Error.IoError "No such file or directory")) =
      Except.error Error.UnknownDb := by
  exact open_missing_file _ _ _ _ (fun l h => by cases h) (fun p h => by cases h)

/-! ### C7: probe order of DB::from_file on an existing file -/

/-- C7: on an existing path, `DB::from_file` tries the Location parse
first — when it succeeds the result is `DB::LocationDb` whatever the Proxy
probe would do (quantifying over the Proxy outcome shows it is never
consulted); only on Location failure is the Proxy probe used; when both
probes fail the result is exactly `Error::UnknownDb`. The embedding is a
total function, so no panic and no further format detection occurs. -/
theorem from_file_probe_order {L P : Type} :
    (∀ (l : L) (proxyFromFile : Except Error P),
      DB.from_file true (Except.ok l) proxyFromFile = Except.ok (DB.LocationDb l)) ∧
    (∀ (e : Error) (p : P),
      DB.from_file (L := L) true (Except.error e) (Except.ok p) =
        Except.ok (DB.ProxyDb p)) ∧
    (∀ (e e2 : Error),
      DB.from_file (L := L) (P := P) true (Except.error e) (Except.error e2) =
        Except.error Error.UnknownDb) := by
  exact ⟨fun l pr => rfl, fun e p => rfl, fun e e2 => rfl⟩

/-! ### C9: ip_lookup preserves the variant chosen at open time -/

/-- C9: `DB::ip_lookup` dispatches to the variant selected at open time
and preserves the tag: a `LocationDb` handle yields `Record::LocationDb`
on inner success and the inner error otherwise, a `ProxyDb` handle yields
`Record::ProxyDb` on inner success and the inner error otherwise, and
neither ever yields the other variant's record. -/
theorem ip_lookup_preserves_variant {L P LR PR Ip : Type}
    (locLookup : L → Ip → Except Error LR) (proxyLookup : P → Ip → Except Error PR)
    (ldb : L) (pdb : P) (ip : Ip) :
    (∀ r, locLookup ldb ip = Except.ok r →
      DB.ip_lookup locLookup proxyLookup (DB.LocationDb ldb) ip =
        Except.ok (Record.LocationDb r)) ∧
    (∀ e, locLookup ldb ip = Except.error e →
      DB.ip_lookup locLookup proxyLookup (DB.LocationDb ldb) ip = Except.error e) ∧
    (∀ r, proxyLookup pdb ip = Except.ok r →
      DB.ip_lookup locLookup proxyLookup (DB.ProxyDb pdb) ip =
        Except.ok (Record.ProxyDb r)) ∧
    (∀ e, proxyLookup pdb ip = Except.error e →
      DB.ip_lookup locLookup proxyLookup (DB.ProxyDb pdb) ip = Except.error e) ∧
    (∀ r, DB.ip_lookup locLookup proxyLookup (DB.LocationDb ldb) ip ≠
      Except.ok (Record.ProxyDb r)) ∧
    (∀ r, DB.ip_lookup locLookup proxyLookup (DB.ProxyDb pdb) ip ≠
      Except.ok (Record.LocationDb r)) := by
  refine ⟨?_, ?_, ?_, ?_, ?_, ?_⟩
  · intro r h
    simp [DB.ip_lookup, h]
  · intro e h
    simp [DB.ip_lookup, h]
  · intro r h
    simp [DB.ip_lookup, h]
  · intro e h
    simp [DB.ip_lookup, h]
  · intro r h
    rw [DB.ip_lookup] at h
    match hm : locLookup ldb ip with
    | .ok v => rw [hm] at h; cases h
    | .error e => rw [hm] at h; cases h
  · intro r h
    rw [DB.ip_lookup] at h
    match hm : proxyLookup pdb ip with
    | .ok v => rw [hm] at h; cases h
    | .error e => rw [hm] at h; cases h

/-- C9 (witness): the dispatch theorem instantiated at concrete inner
lookup functions, showing the tag is preserved on both variants. -/
theorem ip_lookup_preserves_variant_witness :
    DB.ip_lookup (fun (_ : Unit) (_ : Unit) => Except.ok (0 : Nat))
        (fun (_ : Unit) (_ : Unit) => Except.ok (1 : Nat)) (DB.LocationDb ()) () =
      Except.ok (Record.LocationDb 0) ∧
    DB.ip_lookup (fun (_ : Unit) (_ : Unit) => Except.ok (0 : Nat))
        (fun (_ : Unit) (_ : Unit) => Except.ok (1 : Nat)) (DB.ProxyDb ()) () =
      Except.ok (Record.ProxyDb 1) := by
  have h := ip_lookup_preserves_variant (fun (_ : Unit) (_ : Unit) => Except.ok (0 : Nat))
    (fun (_ : Unit) (_ : Unit) => Except.ok (1 : Nat)) () () ()
  exact ⟨h.1 0 rfl, h.2.2.1 1 rfl⟩
